import Mathlib

/-!
Verification of the nymea-gpio GPIO line abstraction.

This file gives a shallow embedding of the libgpiod-backed implementation in
`src/libnymea-gpio/gpio.cpp` and of the monitor in
`src/libnymea-gpio/gpiomonitor.cpp`, and proves the testable properties of the
specification against it.  Kernel calls that can fail (chip open, line get,
line request, value read/write) are modelled by explicit success oracles in an
`Env` record; the kernel-visible configuration of the active line request
(direction, edge, polarity flags) is part of the modelled state, mirroring the
flags the code actually passes to `gpiod_line_request_*`.
-/

/-- `Gpio::Direction` from gpio.h: DirectionInvalid, DirectionInput, DirectionOutput. -/
inductive Direction where
  | invalid
  | input
  | output
deriving DecidableEq

/-- `Gpio::Value` from gpio.h: ValueInvalid (-1), ValueLow (0), ValueHigh (1). -/
inductive Value where
  | invalid
  | low
  | high
deriving DecidableEq

/-- `Gpio::Edge` from gpio.h: EdgeFalling, EdgeRising, EdgeBoth, EdgeNone. -/
inductive Edge where
  | falling
  | rising
  | both
  | none
deriving DecidableEq

/-- One `/sys/class/gpio/gpiochipN` directory as seen by `resolveLineFromSysfs`:
`readable` is false when either the `base` or the `ngpio` file cannot be read
(the loop then skips the entry with `continue`). -/
structure SysfsChipDir where
  name : String
  base : Int
  ngpio : Int
  readable : Bool
deriving DecidableEq

/-- `resolveLineFromSysfs` (gpio.cpp lines 161-183): scan the gpiochip entries in
order; skip unreadable ones; return the first whose range `[base, base+ngpio)`
contains the number, with offset `gpioNumber - base`. -/
def resolveLineFromSysfs : List SysfsChipDir → Int → Option (String × Int)
  | [], _ => Option.none
  | e :: rest, n =>
    if e.readable = true ∧ e.base ≤ n ∧ n < e.base + e.ngpio then
      Option.some (e.name, n - e.base)
    else resolveLineFromSysfs rest n

/-- One gpiod chip as enumerated by `gpiod_foreach_chip`: a name and a line count. -/
structure GpiodChip where
  name : String
  numLines : Nat
deriving DecidableEq

/-- The loop body of `resolveLineSequential` (gpio.cpp lines 196-206): walk the
chips accumulating a running base; return the first chip with
`gpioNumber < base + numLines`, with offset `gpioNumber - base`. -/
def resolveLineSequentialAux : List GpiodChip → Nat → Nat → Option (String × Nat)
  | [], _, _ => Option.none
  | c :: rest, n, base =>
    if n < base + c.numLines then Option.some (c.name, n - base)
    else resolveLineSequentialAux rest n (base + c.numLines)

/-- `resolveLineSequential` (gpio.cpp lines 185-210): negative numbers are
rejected up front; otherwise the chips are walked with a cumulative base
starting at 0. -/
def resolveLineSequential (chips : List GpiodChip) (n : Int) : Option (String × Nat) :=
  if n < 0 then Option.none
  else resolveLineSequentialAux chips n.toNat 0

/-- The contiguous line range `[base, base+count)` a chip occupies in the
sequential numbering built by `resolveLineSequential`. -/
structure LineRange where
  name : String
  base : Nat
  count : Nat
deriving DecidableEq

/-- The ranges the chips occupy in the cumulative numbering of
`resolveLineSequentialAux`, starting at `base`. -/
def seqRanges : List GpiodChip → Nat → List LineRange
  | [], _ => []
  | c :: rest, base =>
    { name := c.name, base := base, count := c.numLines } :: seqRanges rest (base + c.numLines)

/-- Ranges of readable sysfs chip entries are pairwise disjoint (the kernel
guarantees this for real gpiochip base/ngpio files). -/
def sysfsRangesDisjoint (es : List SysfsChipDir) : Prop :=
  es.Pairwise (fun a b => ∀ m : Int, a.readable = true → b.readable = true →
    a.base ≤ m → m < a.base + a.ngpio → ¬(b.base ≤ m ∧ m < b.base + b.ngpio))

/-- Success oracles for the kernel calls made through libgpiod, plus the chip
sets visible to the two resolution strategies. -/
structure Env where
  sysfsChips : List SysfsChipDir
  gpiodChips : List GpiodChip
  chipOpenOk : Bool
  lineGetOk : Bool
  requestOk : Bool
  setOk : Bool
  getValueOk : Bool
deriving DecidableEq

/-- The state of one `Gpio` object (gpio.cpp, libgpiod branch) together with the
kernel-visible state of its line: `chipName`/`lineOffset` cache the resolution
(`m_chipName`, `m_lineOffset`; empty name means unresolved), `chipOpen` models
`m_chip != nullptr`, `lineHeld` models `m_line != nullptr`, `lineRequested`
models `gpiod_line_is_requested`, `physicalLevel` is the electrical level of
the line, and `requestedDir`/`requestedEdge`/`requestedActiveLow` record the
configuration of the active kernel request (the code always passes flags 0, so
no kernel-side inversion is ever requested). -/
structure GpioState where
  gpio : Int
  direction : Direction
  edge : Edge
  activeLow : Bool
  chipName : String
  lineOffset : Int
  chipOpen : Bool
  lineHeld : Bool
  lineRequested : Bool
  physicalLevel : Int
  requestedDir : Direction
  requestedEdge : Edge
  requestedActiveLow : Bool
deriving DecidableEq

/-- `Gpio::Gpio(int gpio, ...)` (gpio.cpp line 216): a fresh handle with
direction invalid, edge none, active-low false and no kernel resources. -/
def mkGpio (n : Int) : GpioState :=
  { gpio := n
    direction := Direction.invalid
    edge := Edge.none
    activeLow := false
    chipName := ""
    lineOffset := 0
    chipOpen := false
    lineHeld := false
    lineRequested := false
    physicalLevel := 0
    requestedDir := Direction.invalid
    requestedEdge := Edge.none
    requestedActiveLow := false }

namespace Gpio

/-- `Gpio::resolveLine` (gpio.cpp lines 675-687): keep a cached nonempty
`m_chipName`; otherwise try the sysfs resolver, then the sequential one,
caching the result on success. -/
def resolveLine (env : Env) (s : GpioState) : Bool × GpioState :=
  if s.chipName.isEmpty = false then (true, s)
  else
    match resolveLineFromSysfs env.sysfsChips s.gpio with
    | Option.some p => (true, { s with chipName := p.1, lineOffset := p.2 })
    | Option.none =>
      match resolveLineSequential env.gpiodChips s.gpio with
      | Option.some p => (true, { s with chipName := p.1, lineOffset := (p.2 : Int) })
      | Option.none => (false, s)

/-- `Gpio::exportGpio` (gpio.cpp lines 271-319, libgpiod branch): already-open
handles return true immediately; otherwise resolve, open the chip
(`gpiod_chip_open_by_name`), and get the line (`gpiod_chip_get_line`); on a
line-get failure the chip is closed again before returning false. -/
def exportGpio (env : Env) (s : GpioState) : Bool × GpioState :=
  if s.lineHeld = true ∧ s.chipOpen = true then (true, s)
  else
    let r := resolveLine env s
    if r.1 = false then (false, r.2)
    else
      let s2 := { r.2 with chipOpen := env.chipOpenOk }
      if env.chipOpenOk = false then (false, s2)
      else if env.lineGetOk = false then (false, { s2 with chipOpen := false })
      else (true, { s2 with lineHeld := true })

/-- `Gpio::unexportGpio` (gpio.cpp lines 322-352, libgpiod branch): release the
line if requested, drop the line and chip handles, reset direction to invalid
and edge to none; always returns true. -/
def unexportGpio (s : GpioState) : Bool × GpioState :=
  let s1 := if s.lineHeld = true then { s with lineRequested := false, lineHeld := false } else s
  let s2 := if s1.chipOpen = true then { s1 with chipOpen := false } else s1
  (true, { s2 with direction := Direction.invalid, edge := Edge.none })

/-- `Gpio::requestLine` (gpio.cpp lines 689-718): needs `m_line`; releases any
active request, then requests output with the given output value, or input
with the given edge trigger; all requests pass flags 0 (no active-low flag). -/
def requestLine (env : Env) (s : GpioState) (d : Direction) (e : Edge) (outputValue : Int) :
    Bool × GpioState :=
  if s.lineHeld = false then (false, s)
  else
    let s1 := if s.lineRequested = true then { s with lineRequested := false } else s
    if env.requestOk = false then (false, s1)
    else
      (true, { s1 with
        lineRequested := true
        requestedDir := d
        requestedEdge := if d = Direction.output then Edge.none else e
        requestedActiveLow := false
        physicalLevel := if d = Direction.output then outputValue else s1.physicalLevel })

/-- `Gpio::setDirection` (gpio.cpp lines 355-409, libgpiod branch): rejects
invalid; exports if no line is held; reads the current value to preserve it as
the output level; re-requests with edge none; clears the cached edge only for
output. -/
def setDirection (env : Env) (s : GpioState) (d : Direction) : Bool × GpioState :=
  if d = Direction.invalid then (false, s)
  else
    let p := if s.lineHeld = true then (true, s) else exportGpio env s
    if p.1 = false then (false, p.2)
    else
      let s1 := p.2
      let outputValue : Int :=
        if s1.lineHeld = true ∧ s1.lineRequested = true ∧ env.getValueOk = true then
          s1.physicalLevel
        else 0
      let q := requestLine env s1 d Edge.none outputValue
      if q.1 = false then (false, q.2)
      else
        (true, { q.2 with
          direction := d
          edge := if d = Direction.output then Edge.none else q.2.edge })

/-- `Gpio::direction` accessor (gpio.cpp line 436, libgpiod branch): cached. -/
def direction (s : GpioState) : Direction := s.direction

/-- `Gpio::logicalToPhysicalValue` (gpio.cpp lines 720-730). -/
def logicalToPhysicalValue (activeLow : Bool) (v : Value) : Int :=
  match v with
  | Value.low => if activeLow then 1 else 0
  | Value.high => if activeLow then 0 else 1
  | Value.invalid => -1

/-- `Gpio::physicalToLogicalValue` (gpio.cpp lines 732-740). -/
def physicalToLogicalValue (activeLow : Bool) (v : Int) : Value :=
  if v < 0 then Value.invalid
  else
    let physicalHigh : Bool := decide (v ≠ 0)
    let logicalHigh : Bool := if activeLow then !physicalHigh else physicalHigh
    if logicalHigh then Value.high else Value.low

/-- `Gpio::setValue` (gpio.cpp lines 441-501, libgpiod branch): rejects invalid
values and non-output directions, needs a requested line, writes the physical
translation of the logical value with `gpiod_line_set_value`. -/
def setValue (env : Env) (s : GpioState) (v : Value) : Bool × GpioState :=
  if v = Value.invalid then (false, s)
  else if s.direction = Direction.input then (false, s)
  else if s.direction = Direction.invalid then (false, s)
  else if s.lineHeld = false ∨ s.lineRequested = false then (false, s)
  else
    let pv := logicalToPhysicalValue s.activeLow v
    if pv < 0 then (false, s)
    else if env.setOk = false then (false, s)
    else (true, { s with physicalLevel := pv })

/-- `Gpio::value` (gpio.cpp lines 504-539, libgpiod branch): invalid unless a
line is requested and the read succeeds; translates the physical level back to
logical space. -/
def value (env : Env) (s : GpioState) : Value :=
  if s.lineHeld = false ∨ s.lineRequested = false then Value.invalid
  else if env.getValueOk = false then Value.invalid
  else physicalToLogicalValue s.activeLow s.physicalLevel

/-- `Gpio::setActiveLow` (gpio.cpp lines 542-566, libgpiod branch): sets
`m_activeLow` and returns true; nothing else happens. -/
def setActiveLow (s : GpioState) (b : Bool) : Bool × GpioState :=
  (true, { s with activeLow := b })

/-- `Gpio::activeLow` accessor (gpio.cpp line 588, libgpiod branch). -/
def activeLow (s : GpioState) : Bool := s.activeLow

/-- `Gpio::setEdgeInterrupt` (gpio.cpp lines 593-641, libgpiod branch): rejected
outright on output direction; exports if no line held; re-requests as input
with the given edge; on success forces direction input and caches the edge. -/
def setEdgeInterrupt (env : Env) (s : GpioState) (e : Edge) : Bool × GpioState :=
  if s.direction = Direction.output then (false, s)
  else
    let p := if s.lineHeld = true then (true, s) else exportGpio env s
    if p.1 = false then (false, p.2)
    else
      let q := requestLine env p.2 Direction.input e 0
      if q.1 = false then (false, q.2)
      else (true, { q.2 with direction := Direction.input, edge := e })

/-- `Gpio::edgeInterrupt` accessor (gpio.cpp line 670, libgpiod branch): cached. -/
def edgeInterrupt (s : GpioState) : Edge := s.edge

/-- `Gpio::isAvailable` (gpio.cpp lines 234-248, libgpiod branch): true iff the
chip iterator yields at least one chip. -/
def isAvailable (env : Env) : Bool := !env.gpiodChips.isEmpty

end Gpio

/-- The members of one `GpioMonitor` (gpiomonitor.h lines 50-60). -/
structure MonitorState where
  gpioNumber : Int
  edge : Edge
  activeLow : Bool
  enabled : Bool
  value : Value
  stop : Bool
deriving DecidableEq

/-- `GpioMonitor::GpioMonitor(int gpio, ...)` with the member initialisers of
gpiomonitor.h: edge = EdgeBoth, activeLow = true, enabled = false,
value = ValueInvalid. -/
def mkMonitor (n : Int) : MonitorState :=
  { gpioNumber := n
    edge := Edge.both
    activeLow := true
    enabled := false
    value := Value.invalid
    stop := false }

namespace GpioMonitor

/-- `GpioMonitor::edge` accessor (gpiomonitor.cpp line 98). -/
def edge (m : MonitorState) : Edge := m.edge

/-- `GpioMonitor::activeLow` accessor (gpiomonitor.cpp line 113). -/
def activeLow (m : MonitorState) : Bool := m.activeLow

/-- `GpioMonitor::value` accessor (gpiomonitor.cpp lines 126-130). -/
def value (m : MonitorState) : Value := m.value

/-- `GpioMonitor::enabled` accessor (gpiomonitor.cpp line 135). -/
def enabled (m : MonitorState) : Bool := m.enabled

/-- `GpioMonitor::enable` (gpiomonitor.cpp lines 260-280): returns true at once
if the thread is already running; otherwise the only synchronous check is
`Gpio::isAvailable()`; when it passes, `start()` launches the worker and enable
returns true.  The result is the pair (return value, worker started by this
call). -/
def enable (isRunning : Bool) (available : Bool) : Bool × Bool :=
  if isRunning = true then (true, false)
  else if available = false then (false, false)
  else (true, true)

/-- The initialisation phase of `GpioMonitor::run` (gpiomonitor.cpp lines
165-196): inside the worker, export the GPIO, set direction input, set the
edge interrupt, set active low, open the value file; any failure makes run()
return before entering the poll loop.  The result is whether the worker
reached the poll loop. -/
def runInit (env : Env) (valueFileOpenOk : Bool) (m : MonitorState) : Bool :=
  let e := Gpio.exportGpio env (mkGpio m.gpioNumber)
  if e.1 = false then false
  else
    let d := Gpio.setDirection env e.2 Direction.input
    if d.1 = false then false
    else
      let i := Gpio.setEdgeInterrupt env d.2 m.edge
      if i.1 = false then false
      else
        let a := Gpio.setActiveLow i.2 m.activeLow
        if a.1 = false then false
        else valueFileOpenOk

end GpioMonitor

/-! ## Concrete fixtures used by witnesses and counterexamples -/

/-- An environment where every kernel call succeeds and one chip
("gpiochip0", base 0, 32 lines) is present under both resolution strategies. -/
def envOK : Env :=
  { sysfsChips := [{ name := "gpiochip0", base := 0, ngpio := 32, readable := true }]
    gpiodChips := [{ name := "gpiochip0", numLines := 32 }]
    chipOpenOk := true
    lineGetOk := true
    requestOk := true
    setOk := true
    getValueOk := true }

/-- An environment whose only chip has 8 lines, so that line 9999 resolves
nowhere although GPIOs are available. -/
def envBad : Env :=
  { sysfsChips := []
    gpiodChips := [{ name := "gpiochip0", numLines := 8 }]
    chipOpenOk := true
    lineGetOk := true
    requestOk := true
    setOk := true
    getValueOk := true }

/-- A handle on line 5 that is open and requested as an output, active-high. -/
def sOut : GpioState :=
  { gpio := 5
    direction := Direction.output
    edge := Edge.none
    activeLow := false
    chipName := "gpiochip0"
    lineOffset := 5
    chipOpen := true
    lineHeld := true
    lineRequested := true
    physicalLevel := 0
    requestedDir := Direction.output
    requestedEdge := Edge.none
    requestedActiveLow := false }

/-- A handle on line 6 that is open and requested as an input. -/
def sIn : GpioState :=
  { gpio := 6
    direction := Direction.input
    edge := Edge.none
    activeLow := false
    chipName := "gpiochip0"
    lineOffset := 6
    chipOpen := true
    lineHeld := true
    lineRequested := true
    physicalLevel := 0
    requestedDir := Direction.input
    requestedEdge := Edge.none
    requestedActiveLow := false }

/-! ## Claim theorems -/

/-- C10: a freshly constructed GpioMonitor, before any setter or enable() call,
has edge() = Both, activeLow() = true, enabled() = false and
value() = Invalid. -/
theorem monitor_initial_defaults (n : Int) :
    GpioMonitor.edge (mkMonitor n) = Edge.both ∧
    GpioMonitor.activeLow (mkMonitor n) = true ∧
    GpioMonitor.enabled (mkMonitor n) = false ∧
    GpioMonitor.value (mkMonitor n) = Value.invalid := by
  refine ⟨rfl, rfl, rfl, rfl⟩

/-- C7: close()/unexport always succeeds on every handle (opened or not);
afterwards direction() is Unset, edgeInterrupt() is None and value() is
Unknown for every environment; and a second close returns the same result and
leaves the state identical. -/
theorem unexportGpio_idempotent_clears_state (env : Env) (s : GpioState) :
    (Gpio.unexportGpio s).1 = true ∧
    Gpio.direction (Gpio.unexportGpio s).2 = Direction.invalid ∧
    Gpio.edgeInterrupt (Gpio.unexportGpio s).2 = Edge.none ∧
    Gpio.value env (Gpio.unexportGpio s).2 = Value.invalid ∧
    Gpio.unexportGpio (Gpio.unexportGpio s).2 = (true, (Gpio.unexportGpio s).2) := by
  unfold Gpio.unexportGpio Gpio.direction Gpio.edgeInterrupt Gpio.value
  by_cases h1 : s.lineHeld = true <;> by_cases h2 : s.chipOpen = true <;>
    simp [h1, h2]

/-- C2: setValue on a handle whose direction is Input or Unset fails for every
argument and leaves the whole observable state unchanged (the state is
returned as is). -/
theorem setValue_rejected_on_input_or_unset (env : Env) (s : GpioState) (v : Value)
    (h : s.direction = Direction.input ∨ s.direction = Direction.invalid) :
    Gpio.setValue env s v = (false, s) := by
  unfold Gpio.setValue
  by_cases hv : v = Value.invalid
  · simp [hv]
  · rcases h with h | h <;> simp [hv, h]

/-- Witness for C2 at a concrete input handle and a concrete unset handle. -/
theorem setValue_rejected_on_input_or_unset_witness :
    Gpio.setValue envOK sIn Value.high = (false, sIn) ∧
    Gpio.setValue envOK (mkGpio 3) Value.low = (false, mkGpio 3) := by
  exact ⟨setValue_rejected_on_input_or_unset envOK sIn Value.high (Or.inl rfl),
         setValue_rejected_on_input_or_unset envOK (mkGpio 3) Value.low (Or.inr rfl)⟩

/-- C1: whenever setValue(X) succeeds (which requires an Output direction), the
physical level written to the line is (X = High) XOR activeLow, and a
subsequent value() read of that physical level returns X; the polarity
translation round-trips. -/
theorem setValue_polarity_roundtrips (env : Env) (s : GpioState) (v : Value)
    (h : (Gpio.setValue env s v).1 = true) (hg : env.getValueOk = true) :
    (Gpio.setValue env s v).2.physicalLevel =
      (if (decide (v = Value.high)).xor s.activeLow then (1 : Int) else 0) ∧
    Gpio.value env (Gpio.setValue env s v).2 = v ∧
    Gpio.physicalToLogicalValue s.activeLow (Gpio.logicalToPhysicalValue s.activeLow v) = v := by
  unfold Gpio.setValue at h ⊢
  by_cases h1 : v = Value.invalid
  · simp [h1] at h
  by_cases h2 : s.direction = Direction.input
  · simp [h1, h2] at h
  by_cases h3 : s.direction = Direction.invalid
  · simp [h1, h2, h3] at h
  by_cases h4 : s.lineHeld = false ∨ s.lineRequested = false
  · simp [h1, h2, h3, h4] at h
  by_cases h5 : env.setOk = false
  · cases v with
    | invalid => exact absurd rfl h1
    | low =>
      rcases Bool.eq_false_or_eq_true s.activeLow with hb | hb <;>
        simp [h2, h3, h4, h5, hb, Gpio.logicalToPhysicalValue] at h
    | high =>
      rcases Bool.eq_false_or_eq_true s.activeLow with hb | hb <;>
        simp [h2, h3, h4, h5, hb, Gpio.logicalToPhysicalValue] at h
  have hl : s.lineHeld = true := by
    rcases Bool.eq_false_or_eq_true s.lineHeld with hh | hh
    · exact hh
    · exact absurd (Or.inl hh) h4
  have hr : s.lineRequested = true := by
    rcases Bool.eq_false_or_eq_true s.lineRequested with hh | hh
    · exact hh
    · exact absurd (Or.inr hh) h4
  cases v with
  | invalid => exact absurd rfl h1
  | low =>
    rcases Bool.eq_false_or_eq_true s.activeLow with hb | hb <;>
      simp [h2, h3, h4, h5, hl, hr, hb, hg, Gpio.value,
        Gpio.logicalToPhysicalValue, Gpio.physicalToLogicalValue]
  | high =>
    rcases Bool.eq_false_or_eq_true s.activeLow with hb | hb <;>
      simp [h2, h3, h4, h5, hl, hr, hb, hg, Gpio.value,
        Gpio.logicalToPhysicalValue, Gpio.physicalToLogicalValue]

/-- Witness for C1: a requested active-high output handle, setting High. -/
theorem setValue_polarity_roundtrips_witness :
    (Gpio.setValue envOK sOut Value.high).2.physicalLevel =
      (if (decide ((Value.high : Value) = Value.high)).xor sOut.activeLow then (1 : Int) else 0) ∧
    Gpio.value envOK (Gpio.setValue envOK sOut Value.high).2 = Value.high ∧
    Gpio.physicalToLogicalValue sOut.activeLow
      (Gpio.logicalToPhysicalValue sOut.activeLow Value.high) = Value.high :=
  setValue_polarity_roundtrips envOK sOut Value.high (by decide) rfl

/-- C3: setEdgeInterrupt is rejected outright (state untouched) when the
direction is Output; on an Input-direction handle whose line is held, when the
kernel request succeeds the call returns true and edgeInterrupt() afterwards
returns exactly the requested mode. -/
theorem setEdgeInterrupt_direction_gate (env : Env) (s : GpioState) (e : Edge) :
    (s.direction = Direction.output → Gpio.setEdgeInterrupt env s e = (false, s)) ∧
    (s.direction = Direction.input → s.lineHeld = true → env.requestOk = true →
      (Gpio.setEdgeInterrupt env s e).1 = true ∧
      Gpio.edgeInterrupt (Gpio.setEdgeInterrupt env s e).2 = e) := by
  constructor
  · intro h
    unfold Gpio.setEdgeInterrupt
    simp [h]
  · intro hd hl hr
    unfold Gpio.setEdgeInterrupt Gpio.requestLine Gpio.edgeInterrupt
    by_cases hq : s.lineRequested = true <;> simp [hd, hl, hr, hq]

/-- Witness for C3: rejection on an output handle, success on an input handle. -/
theorem setEdgeInterrupt_direction_gate_witness :
    Gpio.setEdgeInterrupt envOK sOut Edge.both = (false, sOut) ∧
    ((Gpio.setEdgeInterrupt envOK sIn Edge.rising).1 = true ∧
      Gpio.edgeInterrupt (Gpio.setEdgeInterrupt envOK sIn Edge.rising).2 = Edge.rising) :=
  ⟨(setEdgeInterrupt_direction_gate envOK sOut Edge.both).1 rfl,
   (setEdgeInterrupt_direction_gate envOK sIn Edge.rising).2 rfl rfl rfl⟩

/-- C8 counterexample: on a handle whose line is requested (active-high), the
call setActiveLow(true) returns true and flips only the cached flag; the
active kernel request is left exactly as it was (same direction, same edge,
still flags 0, i.e. no active-low request flag), so the request is NOT
reissued with the new polarity flag as the claim states. -/
theorem setActiveLow_no_reissue_counterexample :
    sOut.lineRequested = true ∧ sOut.activeLow = false ∧
    (Gpio.setActiveLow sOut true).1 = true ∧
    (Gpio.setActiveLow sOut true).2.activeLow = true ∧
    (Gpio.setActiveLow sOut true).2.lineRequested = sOut.lineRequested ∧
    (Gpio.setActiveLow sOut true).2.requestedDir = sOut.requestedDir ∧
    (Gpio.setActiveLow sOut true).2.requestedEdge = sOut.requestedEdge ∧
    ¬((Gpio.setActiveLow sOut true).2.requestedActiveLow = true) := by
  decide

/-- C8 as amended: setActiveLow(b) always succeeds and changes nothing but the
cached polarity flag (the kernel request is untouched; inversion is applied in
software on each read/write), and it is a no-op when b equals the current
polarity. -/
theorem setActiveLow_updates_flag_only (s : GpioState) (b : Bool) :
    Gpio.setActiveLow s b = (true, { s with activeLow := b }) ∧
    (b = s.activeLow → Gpio.setActiveLow s b = (true, s)) := by
  constructor
  · rfl
  · intro hb
    subst hb
    rfl

/-- Witness for the amended C8 at a concrete requested handle. -/
theorem setActiveLow_updates_flag_only_witness :
    Gpio.setActiveLow sOut false = (true, sOut) :=
  (setActiveLow_updates_flag_only sOut false).2 rfl

/-- C5, evaluated at the failing input: open line 23, setEdgeInterrupt(Both)
succeeds (direction Input, cached edge Both), then setDirection(Input)
succeeds — the line is re-requested with edge None (requestedEdge), yet the
cached edge mode is still Both, so edgeInterrupt() returns Both, not None. -/
theorem setDirection_input_keeps_stale_edge :
    (Gpio.exportGpio envOK (mkGpio 23)).1 = true ∧
    (Gpio.setEdgeInterrupt envOK (Gpio.exportGpio envOK (mkGpio 23)).2 Edge.both).1 = true ∧
    (Gpio.setDirection envOK
        (Gpio.setEdgeInterrupt envOK (Gpio.exportGpio envOK (mkGpio 23)).2 Edge.both).2
        Direction.input).1 = true ∧
    (Gpio.setDirection envOK
        (Gpio.setEdgeInterrupt envOK (Gpio.exportGpio envOK (mkGpio 23)).2 Edge.both).2
        Direction.input).2.requestedEdge = Edge.none ∧
    Gpio.edgeInterrupt
        (Gpio.setDirection envOK
          (Gpio.setEdgeInterrupt envOK (Gpio.exportGpio envOK (mkGpio 23)).2 Edge.both).2
          Direction.input).2 = Edge.both := by
  decide

/-- C9 counterexample: with one 8-line chip present, line 9999 resolves
nowhere, yet enable() returns true and starts the worker (the only synchronous
check is Gpio::isAvailable()); the resolution failure only surfaces inside the
worker, whose initialisation fails before the poll loop. -/
theorem monitorEnable_async_failure_counterexample :
    Gpio.isAvailable envBad = true ∧
    GpioMonitor.enable false (Gpio.isAvailable envBad) = (true, true) ∧
    GpioMonitor.runInit envBad true (mkMonitor 9999) = false := by
  decide

/-- C9 as amended: of the enable() failure conditions only GPIO-unavailability
is reported synchronously as false (and then no worker is started); whenever
GPIOs are available, enable() on a non-running monitor returns true and starts
the worker, and failures such as line-resolution failure abort the worker's
initialisation asynchronously instead. -/
theorem monitorEnable_sync_only_availability (env : Env) :
    (Gpio.isAvailable env = false →
      GpioMonitor.enable false (Gpio.isAvailable env) = (false, false)) ∧
    (Gpio.isAvailable env = true →
      GpioMonitor.enable false (Gpio.isAvailable env) = (true, true)) ∧
    (∀ (fo : Bool) (m : MonitorState),
      (Gpio.exportGpio env (mkGpio m.gpioNumber)).1 = false →
      GpioMonitor.runInit env fo m = false) := by
  refine ⟨?_, ?_, ?_⟩
  · intro h
    simp [GpioMonitor.enable, h]
  · intro h
    simp [GpioMonitor.enable, h]
  · intro fo m h
    unfold GpioMonitor.runInit
    simp [h]

/-- An environment with no chips at all: Gpio::isAvailable() is false. -/
def envNoChips : Env :=
  { sysfsChips := []
    gpiodChips := []
    chipOpenOk := true
    lineGetOk := true
    requestOk := true
    setOk := true
    getValueOk := true }

/-- Witness for the amended C9. -/
theorem monitorEnable_sync_only_availability_witness :
    GpioMonitor.enable false (Gpio.isAvailable envNoChips) = (false, false) ∧
    GpioMonitor.enable false (Gpio.isAvailable envOK) = (true, true) ∧
    GpioMonitor.runInit envBad false (mkMonitor 9999) = false :=
  ⟨(monitorEnable_sync_only_availability envNoChips).1 rfl,
   (monitorEnable_sync_only_availability envOK).2.1 rfl,
   (monitorEnable_sync_only_availability envBad).2.2 false (mkMonitor 9999) (by decide)⟩

/-- Soundness of the sysfs resolver: a successful resolution comes from a
readable entry whose range contains the number, and the offset is n - base. -/
theorem resolveLineFromSysfs_sound :
    ∀ (es : List SysfsChipDir) (n : Int) (nm : String) (off : Int),
    resolveLineFromSysfs es n = Option.some (nm, off) →
    ∃ e, e ∈ es ∧ e.readable = true ∧ e.base ≤ n ∧ n < e.base + e.ngpio ∧
      nm = e.name ∧ off = n - e.base := by
  intro es
  induction es with
  | nil =>
    intro n nm off h
    simp [resolveLineFromSysfs] at h
  | cons e rest ih =>
    intro n nm off h
    unfold resolveLineFromSysfs at h
    by_cases hc : e.readable = true ∧ e.base ≤ n ∧ n < e.base + e.ngpio
    · rw [if_pos hc] at h
      simp only [Option.some.injEq, Prod.mk.injEq] at h
      exact ⟨e, List.mem_cons_self e rest, hc.1, hc.2.1, hc.2.2, h.1.symm, h.2.symm⟩
    · rw [if_neg hc] at h
      obtain ⟨e', hmem, h1, h2, h3, h4, h5⟩ := ih n nm off h
      exact ⟨e', List.mem_cons_of_mem e hmem, h1, h2, h3, h4, h5⟩

/-- Completeness of the sysfs resolver: if no readable entry's range contains
the number, resolution fails. -/
theorem resolveLineFromSysfs_complete :
    ∀ (es : List SysfsChipDir) (n : Int),
    (∀ e ∈ es, ¬(e.readable = true ∧ e.base ≤ n ∧ n < e.base + e.ngpio)) →
    resolveLineFromSysfs es n = Option.none := by
  intro es
  induction es with
  | nil => intro n _; rfl
  | cons e rest ih =>
    intro n hnone
    unfold resolveLineFromSysfs
    rw [if_neg (hnone e (List.mem_cons_self e rest))]
    exact ih n (fun e' he' => hnone e' (List.mem_cons_of_mem e he'))

/-- Uniqueness for the sysfs resolver: with pairwise-disjoint readable ranges,
the resolved entry is the only readable entry containing the number. -/
theorem resolveLineFromSysfs_unique :
    ∀ (es : List SysfsChipDir) (n : Int) (nm : String) (off : Int),
    sysfsRangesDisjoint es →
    resolveLineFromSysfs es n = Option.some (nm, off) →
    ∀ e ∈ es, e.readable = true → e.base ≤ n → n < e.base + e.ngpio →
      e.name = nm ∧ n - e.base = off := by
  intro es
  induction es with
  | nil =>
    intro n nm off _ h
    simp [resolveLineFromSysfs] at h
  | cons c rest ih =>
    intro n nm off hd h e he hr hb hn
    unfold sysfsRangesDisjoint at hd
    rw [List.pairwise_cons] at hd
    obtain ⟨hdc, hdr⟩ := hd
    unfold resolveLineFromSysfs at h
    by_cases hc : c.readable = true ∧ c.base ≤ n ∧ n < c.base + c.ngpio
    · rw [if_pos hc] at h
      simp only [Option.some.injEq, Prod.mk.injEq] at h
      rcases List.mem_cons.mp he with he | he
      · subst he
        exact ⟨h.1, h.2⟩
      · exact absurd ⟨hb, hn⟩ (hdc e he n hc.1 hr hc.2.1 hc.2.2)
    · rw [if_neg hc] at h
      rcases List.mem_cons.mp he with he | he
      · subst he
        exact absurd ⟨hr, hb, hn⟩ hc
      · exact ih n nm off hdr h e he hr hb hn

/-- Every range produced by `seqRanges chips base` starts at or after `base`. -/
theorem seqRanges_base_le :
    ∀ (chips : List GpiodChip) (base : Nat) (r : LineRange),
    r ∈ seqRanges chips base → base ≤ r.base := by
  intro chips
  induction chips with
  | nil =>
    intro base r h
    simp [seqRanges] at h
  | cons c rest ih =>
    intro base r h
    rw [seqRanges, List.mem_cons] at h
    rcases h with h | h
    · subst h
      exact Nat.le_refl base
    · exact Nat.le_trans (Nat.le_add_right base c.numLines) (ih (base + c.numLines) r h)

/-- Soundness of the sequential resolver loop: success comes from the chip
whose cumulative range contains the number, with offset n - base. -/
theorem resolveLineSequentialAux_sound :
    ∀ (chips : List GpiodChip) (n base : Nat) (nm : String) (off : Nat), base ≤ n →
    resolveLineSequentialAux chips n base = Option.some (nm, off) →
    ∃ r, r ∈ seqRanges chips base ∧ r.base ≤ n ∧ n < r.base + r.count ∧
      nm = r.name ∧ off = n - r.base := by
  intro chips
  induction chips with
  | nil =>
    intro n base nm off _ h
    simp [resolveLineSequentialAux] at h
  | cons c rest ih =>
    intro n base nm off hb h
    unfold resolveLineSequentialAux at h
    by_cases hc : n < base + c.numLines
    · rw [if_pos hc] at h
      simp only [Option.some.injEq, Prod.mk.injEq] at h
      refine ⟨{ name := c.name, base := base, count := c.numLines }, ?_, hb, hc, h.1.symm, h.2.symm⟩
      rw [seqRanges]
      exact List.mem_cons_self _ _
    · rw [if_neg hc] at h
      obtain ⟨r, hr, h1, h2, h3, h4⟩ := ih n (base + c.numLines) nm off (Nat.le_of_not_lt hc) h
      refine ⟨r, ?_, h1, h2, h3, h4⟩
      rw [seqRanges]
      exact List.mem_cons_of_mem _ hr

/-- Completeness of the sequential resolver loop: if no cumulative range
contains the number, the loop fails. -/
theorem resolveLineSequentialAux_complete :
    ∀ (chips : List GpiodChip) (n base : Nat), base ≤ n →
    (∀ r ∈ seqRanges chips base, ¬(r.base ≤ n ∧ n < r.base + r.count)) →
    resolveLineSequentialAux chips n base = Option.none := by
  intro chips
  induction chips with
  | nil => intro n base _ _; rfl
  | cons c rest ih =>
    intro n base hb hnone
    unfold resolveLineSequentialAux
    have hhead := hnone { name := c.name, base := base, count := c.numLines }
      (by rw [seqRanges]; exact List.mem_cons_self _ _)
    have hc : ¬ n < base + c.numLines := fun hlt => hhead ⟨hb, hlt⟩
    rw [if_neg hc]
    exact ih n (base + c.numLines) (Nat.le_of_not_lt hc)
      (fun r hr => hnone r (by rw [seqRanges]; exact List.mem_cons_of_mem _ hr))

/-- The cumulative ranges are pairwise disjoint by construction: at most one of
them contains any given number. -/
theorem seqRanges_unique :
    ∀ (chips : List GpiodChip) (base m : Nat) (r₁ r₂ : LineRange),
    r₁ ∈ seqRanges chips base → r₂ ∈ seqRanges chips base →
    r₁.base ≤ m → m < r₁.base + r₁.count → r₂.base ≤ m → m < r₂.base + r₂.count →
    r₁ = r₂ := by
  intro chips
  induction chips with
  | nil =>
    intro base m r₁ r₂ h1
    simp [seqRanges] at h1
  | cons c rest ih =>
    intro base m r₁ r₂ h1 h2 hb1 hn1 hb2 hn2
    rw [seqRanges, List.mem_cons] at h1 h2
    rcases h1 with h1 | h1 <;> rcases h2 with h2 | h2
    · rw [h1, h2]
    · subst h1
      have hle := seqRanges_base_le rest (base + c.numLines) r₂ h2
      have hn1' : m < base + c.numLines := hn1
      omega
    · subst h2
      have hle := seqRanges_base_le rest (base + c.numLines) r₁ h1
      have hn2' : m < base + c.numLines := hn2
      omega
    · exact ih (base + c.numLines) m r₁ r₂ h1 h2 hb1 hn1 hb2 hn2

/-- C4: resolution correctness.  For the sysfs strategy: a successful
resolution returns an entry whose range `[base, base+ngpio)` contains the
number with offset n - base (soundness); if no readable entry's range contains
the number, resolution fails (completeness); and under the kernel's
pairwise-disjointness of chip ranges the resolved entry is the unique match.
For the sequential strategy: every negative number fails; a successful
resolution returns the unique cumulative range containing the number with
offset n - base; if no cumulative range contains the number, resolution
fails; and a number is contained in at most one cumulative range. -/
theorem resolution_unique_and_complete :
    (∀ (es : List SysfsChipDir) (n : Int) (nm : String) (off : Int),
      resolveLineFromSysfs es n = Option.some (nm, off) →
      ∃ e, e ∈ es ∧ e.readable = true ∧ e.base ≤ n ∧ n < e.base + e.ngpio ∧
        nm = e.name ∧ off = n - e.base) ∧
    (∀ (es : List SysfsChipDir) (n : Int),
      (∀ e ∈ es, ¬(e.readable = true ∧ e.base ≤ n ∧ n < e.base + e.ngpio)) →
      resolveLineFromSysfs es n = Option.none) ∧
    (∀ (es : List SysfsChipDir) (n : Int) (nm : String) (off : Int),
      sysfsRangesDisjoint es →
      resolveLineFromSysfs es n = Option.some (nm, off) →
      ∀ e ∈ es, e.readable = true → e.base ≤ n → n < e.base + e.ngpio →
        e.name = nm ∧ n - e.base = off) ∧
    (∀ (chips : List GpiodChip) (n : Int), n < 0 →
      resolveLineSequential chips n = Option.none) ∧
    (∀ (chips : List GpiodChip) (n : Int) (nm : String) (off : Nat),
      resolveLineSequential chips n = Option.some (nm, off) →
      0 ≤ n ∧ ∃ r, r ∈ seqRanges chips 0 ∧ r.base ≤ n.toNat ∧
        n.toNat < r.base + r.count ∧ nm = r.name ∧ off = n.toNat - r.base) ∧
    (∀ (chips : List GpiodChip) (n : Int), 0 ≤ n →
      (∀ r ∈ seqRanges chips 0, ¬(r.base ≤ n.toNat ∧ n.toNat < r.base + r.count)) →
      resolveLineSequential chips n = Option.none) ∧
    (∀ (chips : List GpiodChip) (base m : Nat) (r₁ r₂ : LineRange),
      r₁ ∈ seqRanges chips base → r₂ ∈ seqRanges chips base →
      r₁.base ≤ m → m < r₁.base + r₁.count → r₂.base ≤ m → m < r₂.base + r₂.count →
      r₁ = r₂) := by
  refine ⟨resolveLineFromSysfs_sound, resolveLineFromSysfs_complete,
    resolveLineFromSysfs_unique, ?_, ?_, ?_, seqRanges_unique⟩
  · intro chips n h
    unfold resolveLineSequential
    rw [if_pos h]
  · intro chips n nm off h
    unfold resolveLineSequential at h
    by_cases hneg : n < 0
    · rw [if_pos hneg] at h
      exact absurd h (by simp)
    · rw [if_neg hneg] at h
      exact ⟨Int.not_lt.mp hneg,
        resolveLineSequentialAux_sound chips n.toNat 0 nm off (Nat.zero_le _) h⟩
  · intro chips n hpos hnone
    unfold resolveLineSequential
    rw [if_neg (Int.not_lt.mpr hpos)]
    exact resolveLineSequentialAux_complete chips n.toNat 0 (Nat.zero_le _) hnone

/-- Witness for C4: line 23 resolves on a 32-line chip at base 0; negative
numbers and out-of-range numbers fail to resolve. -/
theorem resolution_unique_and_complete_witness :
    (∃ e, e ∈ envOK.sysfsChips ∧ e.readable = true ∧ e.base ≤ (23 : Int) ∧
      (23 : Int) < e.base + e.ngpio ∧ "gpiochip0" = e.name ∧ (23 : Int) = 23 - e.base) ∧
    resolveLineSequential envOK.gpiodChips (-7) = Option.none ∧
    resolveLineSequential envBad.gpiodChips 9999 = Option.none :=
  ⟨resolution_unique_and_complete.1 envOK.sysfsChips 23 "gpiochip0" 23 (by decide),
   resolution_unique_and_complete.2.2.2.1 envOK.gpiodChips (-7) (by decide),
   resolution_unique_and_complete.2.2.2.2.2.1 envBad.gpiodChips 9999 (by decide) (by decide)⟩

/-- `Gpio::resolveLine` only ever touches the cached resolution
(`m_chipName`/`m_lineOffset`); every other component of the state is
preserved. -/
theorem resolveLine_preserves_config (env : Env) (s : GpioState) :
    (Gpio.resolveLine env s).2.direction = s.direction ∧
    (Gpio.resolveLine env s).2.edge = s.edge ∧
    (Gpio.resolveLine env s).2.activeLow = s.activeLow ∧
    (Gpio.resolveLine env s).2.chipOpen = s.chipOpen ∧
    (Gpio.resolveLine env s).2.lineHeld = s.lineHeld ∧
    (Gpio.resolveLine env s).2.lineRequested = s.lineRequested ∧
    (Gpio.resolveLine env s).2.physicalLevel = s.physicalLevel ∧
    (Gpio.resolveLine env s).2.requestedDir = s.requestedDir ∧
    (Gpio.resolveLine env s).2.requestedEdge = s.requestedEdge ∧
    (Gpio.resolveLine env s).2.requestedActiveLow = s.requestedActiveLow ∧
    (Gpio.resolveLine env s).2.gpio = s.gpio := by
  unfold Gpio.resolveLine
  by_cases h1 : s.chipName.isEmpty = false
  · simp [h1]
  · rw [if_neg h1]
    cases resolveLineFromSysfs env.sysfsChips s.gpio with
    | some p => simp
    | none =>
      cases resolveLineSequential env.gpiodChips s.gpio with
      | some p => simp
      | none => simp

/-- C6: open()/export is idempotent — on an already-opened handle (line held
and chip open) it returns true and the state is exactly unchanged — and on any
failure from an unopened handle no partial kernel state is retained: no
controller handle and no line handle are held afterwards, and direction, edge
mode, active-low flag, request state, line level and requested configuration
are all as before the call (only the resolved-location cache may have been
filled in, which the spec prescribes). -/
theorem exportGpio_idempotent_no_partial_state (env : Env) (s : GpioState) :
    (s.lineHeld = true → s.chipOpen = true → Gpio.exportGpio env s = (true, s)) ∧
    (s.lineHeld = false → s.chipOpen = false → (Gpio.exportGpio env s).1 = false →
      (Gpio.exportGpio env s).2.chipOpen = false ∧
      (Gpio.exportGpio env s).2.lineHeld = false ∧
      (Gpio.exportGpio env s).2.direction = s.direction ∧
      (Gpio.exportGpio env s).2.edge = s.edge ∧
      (Gpio.exportGpio env s).2.activeLow = s.activeLow ∧
      (Gpio.exportGpio env s).2.lineRequested = s.lineRequested ∧
      (Gpio.exportGpio env s).2.physicalLevel = s.physicalLevel ∧
      (Gpio.exportGpio env s).2.requestedDir = s.requestedDir ∧
      (Gpio.exportGpio env s).2.requestedEdge = s.requestedEdge ∧
      (Gpio.exportGpio env s).2.requestedActiveLow = s.requestedActiveLow ∧
      (Gpio.exportGpio env s).2.gpio = s.gpio) := by
  obtain ⟨p1, p2, p3, p4, p5, p6, p7, p8, p9, p10, p11⟩ := resolveLine_preserves_config env s
  constructor
  · intro h1 h2
    unfold Gpio.exportGpio
    simp [h1, h2]
  · intro h1 h2 hf
    unfold Gpio.exportGpio at hf ⊢
    rw [if_neg (by simp [h1])] at hf ⊢
    by_cases hr : (Gpio.resolveLine env s).1 = false
    · simp [hr, p1, p2, p3, p4, p5, p6, p7, p8, p9, p10, p11, h1, h2]
    · rw [if_neg hr] at hf ⊢
      by_cases hco : env.chipOpenOk = false
      · simp [hco, p1, p2, p3, p5, p6, p7, p8, p9, p10, p11, h1]
      · rw [if_neg hco] at hf ⊢
        by_cases hlg : env.lineGetOk = false
        · simp [hlg, p1, p2, p3, p5, p6, p7, p8, p9, p10, p11, h1]
        · rw [if_neg hlg] at hf
          simp at hf

/-- Witness for C6: idempotence on an opened handle, and a clean failure for
line 9999, which resolves nowhere in `envBad`. -/
theorem exportGpio_idempotent_no_partial_state_witness :
    Gpio.exportGpio envOK sOut = (true, sOut) ∧
    ((Gpio.exportGpio envBad (mkGpio 9999)).2.chipOpen = false ∧
      (Gpio.exportGpio envBad (mkGpio 9999)).2.lineHeld = false ∧
      (Gpio.exportGpio envBad (mkGpio 9999)).2.direction = (mkGpio 9999).direction ∧
      (Gpio.exportGpio envBad (mkGpio 9999)).2.edge = (mkGpio 9999).edge ∧
      (Gpio.exportGpio envBad (mkGpio 9999)).2.activeLow = (mkGpio 9999).activeLow ∧
      (Gpio.exportGpio envBad (mkGpio 9999)).2.lineRequested = (mkGpio 9999).lineRequested ∧
      (Gpio.exportGpio envBad (mkGpio 9999)).2.physicalLevel = (mkGpio 9999).physicalLevel ∧
      (Gpio.exportGpio envBad (mkGpio 9999)).2.requestedDir = (mkGpio 9999).requestedDir ∧
      (Gpio.exportGpio envBad (mkGpio 9999)).2.requestedEdge = (mkGpio 9999).requestedEdge ∧
      (Gpio.exportGpio envBad (mkGpio 9999)).2.requestedActiveLow =
        (mkGpio 9999).requestedActiveLow ∧
      (Gpio.exportGpio envBad (mkGpio 9999)).2.gpio = (mkGpio 9999).gpio) :=
  ⟨(exportGpio_idempotent_no_partial_state envOK sOut).1 rfl rfl,
   (exportGpio_idempotent_no_partial_state envBad (mkGpio 9999)).2 rfl rfl (by decide)⟩
